import Mathlib

/-!
Shallow embedding of the literature-review retrieval-and-deduplication
pipeline: the record identity model and deduplication engine
(dedup_papers.py), the download scheduler (download_pdfs.py) and the run
orchestrator (run_searches.py).  Machine-level effects (network attempts,
filesystem writes, timeouts) are modelled by explicit environments: a
per-attempt outcome trace for the downloader and a per-task outcome for the
orchestrator.  Fractions stand in for the similarity scores in [0, 100].
-/

namespace LitReview

/-- ASCII lowercase of one character, as Python str.lower on ASCII input. -/
def lowerChar (c : Char) : Char := c.toLower

/-- Lowercase a string characterwise. -/
def lowerStr (s : String) : String := String.mk (s.data.map lowerChar)

/-- A word character for the regex class backslash-w: alphanumeric or underscore. -/
def isWordChar (c : Char) : Bool := c.isAlphanum || c == '_'

/-- Split a character list on whitespace, dropping empty pieces (Python str.split). -/
def splitWsAux : List Char → List Char → List (List Char)
  | [], [] => []
  | [], acc => [acc.reverse]
  | c :: rest, acc =>
    if c.isWhitespace then
      if acc.isEmpty then splitWsAux rest [] else acc.reverse :: splitWsAux rest []
    else splitWsAux rest (c :: acc)

def splitWs (l : List Char) : List (List Char) := splitWsAux l []

/-- Join tokens with single spaces (Python " ".join(tokens)). -/
def joinTokens : List (List Char) → List Char
  | [] => []
  | [t] => t
  | t :: rest => t ++ ' ' :: joinTokens rest

/-- normalize_title from dedup_papers.py: lowercase, replace characters that
are neither word characters nor whitespace by a space, collapse whitespace. -/
def normalize_title (title : String) : String :=
  let lowered := (lowerStr title).data
  let replaced := lowered.map (fun c => if isWordChar c || c.isWhitespace then c else ' ')
  String.mk (joinTokens (splitWs replaced))

/-- Lexicographic comparison of character lists by code point (Python string sort). -/
def lexLe : List Char → List Char → Bool
  | [], _ => true
  | _ :: _, [] => false
  | a :: as, b :: bs =>
    if a.toNat < b.toNat then true
    else if b.toNat < a.toNat then false
    else lexLe as bs

def insertSorted (x : List Char) : List (List Char) → List (List Char)
  | [] => [x]
  | y :: ys => if lexLe x y then x :: y :: ys else y :: insertSorted x ys

/-- Insertion sort of tokens (Python sorted on strings). -/
def sortTokens : List (List Char) → List (List Char)
  | [] => []
  | x :: xs => insertSorted x (sortTokens xs)

/-- Indel (insert/delete only) edit distance, fuel-bounded; with fuel at least
the sum of lengths it is the true distance.  rapidfuzz fuzz.ratio is the
normalized similarity derived from this distance. -/
def indelDistFuel : Nat → List Char → List Char → Nat
  | 0, xs, ys => xs.length + ys.length
  | _ + 1, [], ys => ys.length
  | _ + 1, x :: xs, [] => (x :: xs).length
  | fuel + 1, x :: xs, y :: ys =>
    if x == y then indelDistFuel fuel xs ys
    else 1 + min (indelDistFuel fuel xs (y :: ys)) (indelDistFuel fuel (x :: xs) ys)

def indelDist (xs ys : List Char) : Nat := indelDistFuel (xs.length + ys.length) xs ys

/-- The token-sort preprocessing of rapidfuzz fuzz.token_sort_ratio: split on
whitespace, sort the tokens, join with single spaces. -/
def tokenSortJoin (s : String) : List Char := joinTokens (sortTokens (splitWs s.data))

/-- rapidfuzz fuzz.token_sort_ratio as an exact rational in [0, 100]:
100 * (1 - dist / (len1 + len2)) on the token-sorted strings, and 100 when
both are empty. -/
def token_sort_ratio (s1 s2 : String) : ℚ :=
  let a := tokenSortJoin s1
  let b := tokenSortJoin s2
  let l := a.length + b.length
  if l = 0 then 100 else (100 * ((l : ℚ) - (indelDist a b : ℚ))) / (l : ℚ)

/-- The similarity score the deduplicator compares against the threshold:
fuzz.token_sort_ratio(a, b) / 100 (dedup_papers.py line 82). -/
def similarity (s1 s2 : String) : ℚ := token_sort_ratio s1 s2 / 100

/-! ## The record data model -/

/-- A raw bibliographic record: the fields of interest of the provider JSON
objects.  A missing key is `none`; Python truthiness of an empty string is
handled by `truthy` below.  `openAccessPdf` is `some u` when the key holds a
truthy dict whose url field is `u` (`none` inside for a dict without url). -/
structure Paper where
  doi : Option String := none
  externalIds_DOI : Option String := none
  title : Option String := none
  arxiv_id : Option String := none
  post_id : Option String := none
  paperId : Option String := none
  pdf_url : Option String := none
  openAccessPdf : Option (Option String) := none
  source : Option String := none
deriving DecidableEq, Repr

/-- Python truthiness of an optional string field: an absent key or an empty
string both fail an `if paper.get(k):` test. -/
def truthy : Option String → Option String
  | none => none
  | some s => if s = "" then none else some s

/-- get_doi from dedup_papers.py: the doi field, else externalIds.DOI, lowercased. -/
def get_doi (p : Paper) : Option String :=
  match truthy p.doi with
  | some d => some (lowerStr d)
  | none =>
    match truthy p.externalIds_DOI with
    | some d => some (lowerStr d)
    | none => none

/-- get_title from dedup_papers.py: paper.get("title", ""). -/
def get_title (p : Paper) : String := p.title.getD ""

/-! ## Deduplication engine (dedup_papers.py) -/

/-- The mutable state of the deduplicate_papers loop: seen DOIs (a set,
modelled as a list), seen normalized titles in order, and the output. -/
structure DedupState where
  seenDois : List String
  seenTitles : List String
  out : List Paper
deriving Repr

/-- The title half of one loop iteration (dedup_papers.py lines 74-93):
records with a falsy title or a falsy normalized title are appended without
any comparison; otherwise the normalized title is compared against every seen
title and the record is dropped when any similarity reaches the threshold. -/
def dedupTitleStep (threshold : ℚ) (st : DedupState) (p : Paper) : DedupState :=
  if get_title p = "" then { st with out := st.out ++ [p] }
  else if normalize_title (get_title p) = "" then { st with out := st.out ++ [p] }
  else if st.seenTitles.any
      (fun s => decide (threshold ≤ similarity (normalize_title (get_title p)) s)) then st
  else { st with seenTitles := st.seenTitles ++ [normalize_title (get_title p)],
                 out := st.out ++ [p] }

/-- One full loop iteration (dedup_papers.py lines 64-93): a record whose DOI
was already seen is dropped before any title comparison; a fresh DOI is
registered whether or not the record survives the title check. -/
def dedupStep (threshold : ℚ) (st : DedupState) (p : Paper) : DedupState :=
  match get_doi p with
  | some d =>
    if d ∈ st.seenDois then st
    else dedupTitleStep threshold { st with seenDois := d :: st.seenDois } p
  | none => dedupTitleStep threshold st p

/-- deduplicate_papers from dedup_papers.py. -/
def deduplicate_papers (papers : List Paper) (threshold : ℚ) : List Paper :=
  (papers.foldl (dedupStep threshold) ⟨[], [], []⟩).out

/-- The spec's identity-equivalence relation on records: DOIs match exactly
case-insensitively (get_doi lowercases both), or the similarity of the
normalized titles reaches the threshold. -/
def identityEquiv (threshold : ℚ) (p q : Paper) : Prop :=
  (∃ d, get_doi p = some d ∧ get_doi q = some d) ∨
  threshold ≤ similarity (normalize_title (get_title q)) (normalize_title (get_title p))

/-- The pairwise guarantee the dedup output actually satisfies: distinct DOIs
always, and a similarity strictly below the threshold whenever both records
have a non-empty normalized title. -/
def distinctIdentity (threshold : ℚ) (p q : Paper) : Prop :=
  (∀ d, get_doi p = some d → get_doi q ≠ some d) ∧
  (normalize_title (get_title p) ≠ "" → normalize_title (get_title q) ≠ "" →
    similarity (normalize_title (get_title q)) (normalize_title (get_title p)) < threshold)

/-! ## Download scheduler (download_pdfs.py) -/

def MAX_CONCURRENT_DOWNLOADS : Nat := 5
def MAX_RETRIES : Nat := 5
def TIMEOUT_SECONDS : Nat := 120

/-- sanitize_filename: delete the problematic characters, replace each
whitespace run by one underscore, truncate to 100 characters. -/
def isProblematicChar (c : Char) : Bool :=
  c == '<' || c == '>' || c == ':' || c == '"' || c == '/' ||
  c == '\\' || c == '|' || c == '?' || c == '*'

/-- Replace each maximal whitespace run by a single underscore (re.sub of a
whitespace-run pattern with an underscore); the flag records whether the
previous character was whitespace. -/
def collapseWsAux : Bool → List Char → List Char
  | _, [] => []
  | prevWs, c :: rest =>
    if c.isWhitespace then
      if prevWs then collapseWsAux true rest
      else '_' :: collapseWsAux true rest
    else c :: collapseWsAux false rest

def sanitize_filename (name : String) : String :=
  String.mk ((collapseWsAux false (name.data.filter (fun c => !isProblematicChar c))).take 100)

/-- Each '/' replaced by '_' (str.replace with a one-character pattern). -/
def replaceSlash (s : String) : String :=
  String.mk (s.data.map (fun c => if c == '/' then '_' else c))

def isPrefixCL : List Char → List Char → Bool
  | [], _ => true
  | _ :: _, [] => false
  | a :: as, b :: bs => a == b && isPrefixCL as bs

/-- Substring test (Python `in` on strings). -/
def hasSub (pat : List Char) : List Char → Bool
  | [] => pat.isEmpty
  | c :: rest => isPrefixCL pat (c :: rest) || hasSub pat rest

/-- The piece after the last '/' (Python s.split("/")[-1]). -/
def afterLastSlash (s : String) : String :=
  String.mk (s.data.foldl (fun acc c => if c == '/' then [] else acc ++ [c]) [])

def endsWithCL (pat : List Char) (l : List Char) : Bool :=
  isPrefixCL pat.reverse l.reverse

/-- get_paper_id from download_pdfs.py: DOI, then arXiv ID (tail after the
last slash when the id mentions arxiv.org), then forum post ID, then provider
paper ID, then the first 50 characters of the title (default "unknown"). -/
def get_paper_id (p : Paper) : String :=
  match truthy p.doi with
  | some d => sanitize_filename (replaceSlash d)
  | none =>
    match truthy p.arxiv_id with
    | some a =>
      let a2 := if hasSub ("arxiv.org".data) a.data then afterLastSlash a else a
      sanitize_filename ("arxiv_" ++ a2)
    | none =>
      match truthy p.post_id with
      | some q => sanitize_filename ("lw_" ++ q)
      | none =>
        match truthy p.paperId with
        | some s => sanitize_filename ("s2_" ++ s)
        | none => sanitize_filename (String.mk ((p.title.getD "unknown").data.take 50))

/-- get_pdf_url from download_pdfs.py: pdf_url if truthy, else the url field
of a truthy openAccessPdf dict.  The result may be `some ""` (a present but
empty url), which the caller's truthiness test then skips. -/
def get_pdf_url (p : Paper) : Option String :=
  match truthy p.pdf_url with
  | some u => some u
  | none =>
    match p.openAccessPdf with
    | some oa => oa
    | none => none

/-- The outcome of one network attempt, as the environment decides it:
a 2xx response with a content type (and whether writing the body to disk then
raises), an HTTP error status raised by raise_for_status, or any other
exception (timeout, connection failure). -/
inductive AttemptResult where
  | success (contentType : String) (writeFails : Bool)
  | httpError (status : Nat)
  | otherError
deriving DecidableEq, Repr

/-- What is on disk at the target path. -/
inductive FileState where
  | absent
  | partialFile
  | complete
deriving DecidableEq, Repr

/-- What one call of download_pdf did: its boolean result, how many attempts
it made, the backoff sleeps between them, and the file left at the path. -/
structure DownloadRun where
  ok : Bool
  attempts : Nat
  sleeps : List Nat
  fileState : FileState
deriving DecidableEq, Repr

def permanentStatuses : List Nat := [403, 404, 451]

def ctHasPdf (ct : String) : Bool := hasSub ("pdf".data) (lowerStr ct).data
def ctHasHtml (ct : String) : Bool := hasSub ("html".data) (lowerStr ct).data
def urlEndsPdf (url : String) : Bool := endsWithCL (".pdf".data) url.data

/-- The retry loop of download_pdf (download_pdfs.py lines 74-107), one
constructor case per control path.  The code opens the final output path
directly in "wb" mode, so a write that raises mid-write leaves a partial file
there; a later successful write overwrites it completely. -/
def download_pdf_aux (url : String) (trace : Nat → AttemptResult) :
    Nat → Nat → FileState → List Nat → DownloadRun
  | 0, attempt, fs, sleeps => ⟨false, attempt, sleeps.reverse, fs⟩
  | remaining + 1, attempt, fs, sleeps =>
    match trace attempt with
    | .success ct writeFails =>
      if !ctHasPdf ct && !urlEndsPdf url && ctHasHtml ct then
        ⟨false, attempt + 1, sleeps.reverse, fs⟩
      else if writeFails then
        if attempt < MAX_RETRIES - 1 then
          download_pdf_aux url trace remaining (attempt + 1) .partialFile (2 ^ attempt :: sleeps)
        else ⟨false, attempt + 1, sleeps.reverse, .partialFile⟩
      else ⟨true, attempt + 1, sleeps.reverse, .complete⟩
    | .httpError s =>
      if s ∈ permanentStatuses then ⟨false, attempt + 1, sleeps.reverse, fs⟩
      else if attempt < MAX_RETRIES - 1 then
        download_pdf_aux url trace remaining (attempt + 1) fs (2 ^ attempt :: sleeps)
      else ⟨false, attempt + 1, sleeps.reverse, fs⟩
    | .otherError =>
      if attempt < MAX_RETRIES - 1 then
        download_pdf_aux url trace remaining (attempt + 1) fs (2 ^ attempt :: sleeps)
      else ⟨false, attempt + 1, sleeps.reverse, fs⟩

/-- download_pdf: run the retry loop from attempt 0 on an absent file. -/
def download_pdf (url : String) (trace : Nat → AttemptResult) : DownloadRun :=
  download_pdf_aux url trace MAX_RETRIES 0 .absent []

/-- A transient attempt outcome in the sense of the spec: a timeout or
connection failure, or a 5xx HTTP status. -/
def transientResult (r : AttemptResult) : Prop :=
  r = .otherError ∨ ∃ s, r = .httpError s ∧ 500 ≤ s

/-- The terminal outcome of one record in download_all. -/
inductive Outcome where
  | downloaded
  | skippedNoUrl
  | skippedExisting
  | failed
deriving DecidableEq, Repr

/-- The per-record part of the environment: whether the target path already
exists, and the network trace of the attempts. -/
structure RecordEnv where
  fileExists : Bool
  trace : Nat → AttemptResult

/-- The decision tree of download_with_semaphore (download_pdfs.py lines
129-156): no truthy url, then existing file, then the download result. -/
def record_outcome (pe : Paper × RecordEnv) : Outcome :=
  match get_pdf_url pe.1 with
  | none => .skippedNoUrl
  | some u =>
    if u = "" then .skippedNoUrl
    else if pe.2.fileExists then .skippedExisting
    else if (download_pdf u pe.2.trace).ok then .downloaded else .failed

def output_path (output_dir : String) (p : Paper) : String :=
  output_dir ++ "/" ++ get_paper_id p ++ ".pdf"

/-- The stats dict of download_all. -/
structure Stats where
  total : Nat
  downloaded : Nat
  skipped_no_url : Nat
  skipped_exists : Nat
  failed : Nat
  downloaded_files : List String
  failed_papers : List (String × Option String × String)
deriving DecidableEq, Repr

/-- The stats updates of download_with_semaphore, one branch per outcome:
skipped-existing and downloaded both append the target path to
downloaded_files; failed appends (id, title, url) to failed_papers. -/
def download_step (output_dir : String) (st : Stats) (pe : Paper × RecordEnv) : Stats :=
  match record_outcome pe with
  | .skippedNoUrl => { st with skipped_no_url := st.skipped_no_url + 1 }
  | .skippedExisting =>
    { st with skipped_exists := st.skipped_exists + 1,
              downloaded_files := st.downloaded_files ++ [output_path output_dir pe.1] }
  | .downloaded =>
    { st with downloaded := st.downloaded + 1,
              downloaded_files := st.downloaded_files ++ [output_path output_dir pe.1] }
  | .failed =>
    { st with failed := st.failed + 1,
              failed_papers := st.failed_papers ++
                [(get_paper_id pe.1, pe.1.title, (get_pdf_url pe.1).getD "")] }

/-- download_all: one outcome per record, accumulated into the stats whose
total is the input length. -/
def download_all (papers : List (Paper × RecordEnv)) (output_dir : String) : Stats :=
  papers.foldl (download_step output_dir) ⟨papers.length, 0, 0, 0, 0, [], []⟩

/-- An outcome that puts the target path into downloaded_files. -/
def keptOutcome : Outcome → Bool
  | .downloaded => true
  | .skippedExisting => true
  | _ => false

def failedOutcome : Outcome → Bool
  | .failed => true
  | _ => false

/-! ## Run orchestrator (run_searches.py) -/

/-- How one provider search subprocess ends: a completed process with a
return code and stderr, a 300-second timeout, or another exception. -/
inductive TaskResult where
  | completed (returncode : Int) (stderrText : String)
  | timedOut
  | excRaised (msg : String)
deriving DecidableEq, Repr

/-- run_search from run_searches.py: (name, exit code, stderr); a timeout
becomes (-1, synthetic diagnostic), an exception (-1, its message). -/
def run_search (name : String) (res : TaskResult) : String × Int × String :=
  match res with
  | .completed rc err => (name, rc, err)
  | .timedOut => (name, -1, "Timeout after 300 seconds")
  | .excRaised m => (name, -1, m)

/-- The count of results with exit code 0 (run_searches.py line 76). -/
def success_count (results : List (String × Int × String)) : Nat :=
  (results.filter (fun r => r.2.1 == 0)).length

/-- The orchestrator's exit code: 1 when no search succeeded, else 0. -/
def main_exit_code (results : List (String × Int × String)) : Nat :=
  if success_count results = 0 then 1 else 0

/-! ## Concrete records for witnesses and counterexamples -/

/-- A record whose title is fifty a's and then a b; no identifiers. -/
def paperLongA : Paper := { title := some (String.mk (List.replicate 50 'a' ++ ['b'])) }

/-- A record whose title is fifty a's and then a c; no identifiers. -/
def paperLongC : Paper := { title := some (String.mk (List.replicate 50 'a' ++ ['c'])) }

/-- A record whose title is pure punctuation: normalized title is empty. -/
def paperBang : Paper := { title := some "!!!", pdf_url := some "http://x/a.pdf" }

/-- Another pure-punctuation title, distinct from paperBang. -/
def paperQuest : Paper := { title := some "???" }

/-- Title of twenty-three a's: one token, token-sorted form of length 23. -/
def paperA23 : Paper := { title := some (String.mk (List.replicate 23 'a')) }

/-- Title of seventeen a's: similarity with the 23-a title is exactly 85/100. -/
def paperA17 : Paper := { title := some (String.mk (List.replicate 17 'a')) }

/-- A record with only a title and a pdf url, for download witnesses. -/
def paperPdf : Paper := { title := some "Foo Bar", pdf_url := some "http://x/paper.pdf" }

/-- Same identity fields as paperPdf, different non-identity fields. -/
def paperPdfB : Paper :=
  { title := some "Foo Bar", pdf_url := some "http://mirror/other.pdf",
    source := some "arxiv" }

/-- The loop invariant of the deduplicator: the retained records are pairwise
distinct in identity, every retained DOI is registered, and every retained
non-empty normalized title is registered. -/
def dedupInv (threshold : ℚ) (st : DedupState) : Prop :=
  st.out.Pairwise (distinctIdentity threshold) ∧
  (∀ p ∈ st.out, ∀ d, get_doi p = some d → d ∈ st.seenDois) ∧
  (∀ p ∈ st.out, normalize_title (get_title p) ≠ "" →
    normalize_title (get_title p) ∈ st.seenTitles)

/-! ## Lemmas about the deduplication loop -/

lemma dedupTitleStep_falsy (θ : ℚ) (st : DedupState) (p : Paper)
    (h : get_title p = "" ∨ normalize_title (get_title p) = "") :
    dedupTitleStep θ st p = { st with out := st.out ++ [p] } := by
  unfold dedupTitleStep
  rcases h with h | h
  · rw [if_pos h]
  · by_cases ht : get_title p = ""
    · rw [if_pos ht]
    · rw [if_neg ht, if_pos h]

lemma dedupTitleStep_drop (θ : ℚ) (st : DedupState) (p : Paper)
    (ht : get_title p ≠ "") (hn : normalize_title (get_title p) ≠ "")
    (hany : st.seenTitles.any
      (fun s => decide (θ ≤ similarity (normalize_title (get_title p)) s)) = true) :
    dedupTitleStep θ st p = st := by
  unfold dedupTitleStep
  rw [if_neg ht, if_neg hn, if_pos hany]

lemma dedupTitleStep_keep (θ : ℚ) (st : DedupState) (p : Paper)
    (ht : get_title p ≠ "") (hn : normalize_title (get_title p) ≠ "")
    (hany : st.seenTitles.any
      (fun s => decide (θ ≤ similarity (normalize_title (get_title p)) s)) = false) :
    dedupTitleStep θ st p =
      { st with seenTitles := st.seenTitles ++ [normalize_title (get_title p)],
                out := st.out ++ [p] } := by
  unfold dedupTitleStep
  rw [if_neg ht, if_neg hn, if_neg (by rw [hany]; exact Bool.false_ne_true)]

lemma dedupStep_none (θ : ℚ) (st : DedupState) (p : Paper) (hd : get_doi p = none) :
    dedupStep θ st p = dedupTitleStep θ st p := by
  simp only [dedupStep, hd]

lemma dedupStep_seen (θ : ℚ) (st : DedupState) (p : Paper) (d : String)
    (hd : get_doi p = some d) (hm : d ∈ st.seenDois) :
    dedupStep θ st p = st := by
  simp only [dedupStep, hd]
  exact if_pos hm

lemma dedupStep_fresh (θ : ℚ) (st : DedupState) (p : Paper) (d : String)
    (hd : get_doi p = some d) (hm : d ∉ st.seenDois) :
    dedupStep θ st p =
      dedupTitleStep θ { st with seenDois := d :: st.seenDois } p := by
  simp only [dedupStep, hd]
  exact if_neg hm

lemma dedupTitleStep_inv (θ : ℚ) (st : DedupState) (p : Paper)
    (h : dedupInv θ st)
    (hdoi1 : ∀ q ∈ st.out, ∀ d, get_doi q = some d → get_doi p ≠ some d)
    (hdoi2 : ∀ d, get_doi p = some d → d ∈ st.seenDois) :
    dedupInv θ (dedupTitleStep θ st p) := by
  obtain ⟨hpw, hdc, htc⟩ := h
  unfold dedupTitleStep
  split_ifs with ht hn hany
  · refine ⟨?_, ?_, ?_⟩
    · rw [List.pairwise_append]
      refine ⟨hpw, List.pairwise_singleton _ _, ?_⟩
      intro q hq b hb
      rw [List.mem_singleton] at hb
      subst hb
      refine ⟨hdoi1 q hq, ?_⟩
      intro _ hbp
      exact absurd (by rw [ht]; rfl) hbp
    · intro q hq d hd
      rcases List.mem_append.1 hq with hq | hq
      · exact hdc q hq d hd
      · rw [List.mem_singleton] at hq; subst hq; exact hdoi2 d hd
    · intro q hq hqn
      rcases List.mem_append.1 hq with hq | hq
      · exact htc q hq hqn
      · rw [List.mem_singleton] at hq; subst hq
        exact absurd (by rw [ht]; rfl) hqn
  · refine ⟨?_, ?_, ?_⟩
    · rw [List.pairwise_append]
      refine ⟨hpw, List.pairwise_singleton _ _, ?_⟩
      intro q hq b hb
      rw [List.mem_singleton] at hb
      subst hb
      exact ⟨hdoi1 q hq, fun _ hbp => absurd hn hbp⟩
    · intro q hq d hd
      rcases List.mem_append.1 hq with hq | hq
      · exact hdc q hq d hd
      · rw [List.mem_singleton] at hq; subst hq; exact hdoi2 d hd
    · intro q hq hqn
      rcases List.mem_append.1 hq with hq | hq
      · exact htc q hq hqn
      · rw [List.mem_singleton] at hq; subst hq; exact absurd hn hqn
  · exact ⟨hpw, hdc, htc⟩
  · have hall : ∀ s ∈ st.seenTitles,
        similarity (normalize_title (get_title p)) s < θ := by
      intro s hs
      by_contra hno
      exact hany (List.any_eq_true.2 ⟨s, hs, decide_eq_true (not_lt.1 hno)⟩)
    refine ⟨?_, ?_, ?_⟩
    · rw [List.pairwise_append]
      refine ⟨hpw, List.pairwise_singleton _ _, ?_⟩
      intro q hq b hb
      rw [List.mem_singleton] at hb
      subst hb
      refine ⟨hdoi1 q hq, ?_⟩
      intro hqn _
      exact hall _ (htc q hq hqn)
    · intro q hq d hd
      rcases List.mem_append.1 hq with hq | hq
      · exact hdc q hq d hd
      · rw [List.mem_singleton] at hq; subst hq; exact hdoi2 d hd
    · intro q hq hqn
      rcases List.mem_append.1 hq with hq | hq
      · exact List.mem_append_left _ (htc q hq hqn)
      · rw [List.mem_singleton] at hq; subst hq
        exact List.mem_append_right _ (List.mem_singleton_self _)

lemma dedupStep_inv (θ : ℚ) (st : DedupState) (p : Paper) (h : dedupInv θ st) :
    dedupInv θ (dedupStep θ st p) := by
  obtain ⟨hpw, hdc, htc⟩ := h
  cases hd : get_doi p with
  | none =>
    rw [dedupStep_none θ st p hd]
    exact dedupTitleStep_inv θ st p ⟨hpw, hdc, htc⟩
      (fun q _ d _ => by rw [hd]; exact fun hc => Option.noConfusion hc)
      (fun d hc => by rw [hd] at hc; exact Option.noConfusion hc)
  | some d =>
    by_cases hmem : d ∈ st.seenDois
    · rw [dedupStep_seen θ st p d hd hmem]
      exact ⟨hpw, hdc, htc⟩
    · rw [dedupStep_fresh θ st p d hd hmem]
      refine dedupTitleStep_inv θ _ p ⟨hpw, ?_, htc⟩ ?_ ?_
      · intro q hq e he
        exact List.mem_cons_of_mem _ (hdc q hq e he)
      · intro q hq e he hpe
        rw [hd] at hpe
        have hed : e = d := by
          have h2 := hpe.symm
          injection h2
        subst hed
        exact hmem (hdc q hq e he)
      · intro e he
        rw [hd] at he
        have hde : d = e := by injection he
        subst hde
        exact List.mem_cons_self _ _

lemma foldl_dedupStep_inv (θ : ℚ) (papers : List Paper) :
    ∀ st : DedupState, dedupInv θ st → dedupInv θ (papers.foldl (dedupStep θ) st) := by
  induction papers with
  | nil => intro st h; exact h
  | cons p rest ih =>
    intro st h
    rw [List.foldl_cons]
    exact ih _ (dedupStep_inv θ st p h)

lemma deduplicate_papers_pairwise (papers : List Paper) (θ : ℚ) :
    (deduplicate_papers papers θ).Pairwise (distinctIdentity θ) := by
  have h := foldl_dedupStep_inv θ papers ⟨[], [], []⟩
    ⟨List.Pairwise.nil, by intro q hq; exact absurd hq (List.not_mem_nil q),
      by intro q hq; exact absurd hq (List.not_mem_nil q)⟩
  exact h.1

lemma foldl_dedupStep_preserves (θ : ℚ) (L : List Paper) :
    ∀ st : DedupState, L.Pairwise (distinctIdentity θ) →
    (∀ p ∈ L, ∀ d, get_doi p = some d → d ∉ st.seenDois) →
    (∀ p ∈ L, normalize_title (get_title p) ≠ "" →
      ∀ s ∈ st.seenTitles, similarity (normalize_title (get_title p)) s < θ) →
    (L.foldl (dedupStep θ) st).out = st.out ++ L := by
  induction L with
  | nil => intro st _ _ _; simp
  | cons p rest ih =>
    intro st hpw hdoi htitle
    rw [List.pairwise_cons] at hpw
    obtain ⟨hhead, htail⟩ := hpw
    rw [List.foldl_cons]
    have hrest_doi : ∀ q ∈ rest, ∀ d, get_doi q = some d → d ∉ st.seenDois :=
      fun q hq d hd => hdoi q (List.mem_cons_of_mem _ hq) d hd
    have hrest_title : ∀ q ∈ rest, normalize_title (get_title q) ≠ "" →
        ∀ s ∈ st.seenTitles, similarity (normalize_title (get_title q)) s < θ :=
      fun q hq => htitle q (List.mem_cons_of_mem _ hq)
    have hnewtitle : normalize_title (get_title p) ≠ "" →
        ∀ q ∈ rest, normalize_title (get_title q) ≠ "" →
        ∀ s ∈ st.seenTitles ++ [normalize_title (get_title p)],
        similarity (normalize_title (get_title q)) s < θ := by
      intro hpn q hq hqn s hs
      rcases List.mem_append.1 hs with hs | hs
      · exact hrest_title q hq hqn s hs
      · rw [List.mem_singleton] at hs
        subst hs
        exact (hhead q hq).2 hpn hqn
    have hnodup : ∀ hn : normalize_title (get_title p) ≠ "", st.seenTitles.any
        (fun s => decide (θ ≤ similarity (normalize_title (get_title p)) s)) = false := by
      intro hn
      by_contra hc
      rw [Bool.not_eq_false, List.any_eq_true] at hc
      obtain ⟨s, hs, hds⟩ := hc
      have hlt := htitle p (List.mem_cons_self _ _) hn s hs
      rw [decide_eq_true_eq] at hds
      exact absurd hds (not_le.2 hlt)
    cases hd : get_doi p with
    | none =>
      rw [dedupStep_none θ st p hd]
      by_cases ht : get_title p = ""
      · rw [dedupTitleStep_falsy θ st p (Or.inl ht),
          ih { st with out := st.out ++ [p] } htail hrest_doi hrest_title]
        simp
      · by_cases hn : normalize_title (get_title p) = ""
        · rw [dedupTitleStep_falsy θ st p (Or.inr hn),
            ih { st with out := st.out ++ [p] } htail hrest_doi hrest_title]
          simp
        · rw [dedupTitleStep_keep θ st p ht hn (hnodup hn),
            ih { st with seenTitles := st.seenTitles ++ [normalize_title (get_title p)],
                         out := st.out ++ [p] } htail hrest_doi (hnewtitle hn)]
          simp
    | some d =>
      have hdfresh : d ∉ st.seenDois := hdoi p (List.mem_cons_self _ _) d hd
      rw [dedupStep_fresh θ st p d hd hdfresh]
      have hrest_doi2 : ∀ q ∈ rest, ∀ e, get_doi q = some e → e ∉ d :: st.seenDois := by
        intro q hq e he hmem
        rcases List.mem_cons.1 hmem with hme | hme
        · subst hme
          exact (hhead q hq).1 e hd he
        · exact hrest_doi q hq e he hme
      by_cases ht : get_title p = ""
      · rw [dedupTitleStep_falsy θ { st with seenDois := d :: st.seenDois } p (Or.inl ht),
          ih { st with seenDois := d :: st.seenDois, out := st.out ++ [p] }
            htail hrest_doi2 hrest_title]
        simp
      · by_cases hn : normalize_title (get_title p) = ""
        · rw [dedupTitleStep_falsy θ { st with seenDois := d :: st.seenDois } p (Or.inr hn),
            ih { st with seenDois := d :: st.seenDois, out := st.out ++ [p] }
              htail hrest_doi2 hrest_title]
          simp
        · rw [dedupTitleStep_keep θ { st with seenDois := d :: st.seenDois } p ht hn (hnodup hn),
            ih { st with seenDois := d :: st.seenDois,
                         seenTitles := st.seenTitles ++ [normalize_title (get_title p)],
                         out := st.out ++ [p] } htail hrest_doi2 (hnewtitle hn)]
          simp

/-! ## Evaluating the similarity score -/

lemma similarity_eval (s1 s2 : String) (L d : Nat)
    (hl : (tokenSortJoin s1).length + (tokenSortJoin s2).length = L)
    (hd : indelDist (tokenSortJoin s1) (tokenSortJoin s2) = d)
    (hL : L ≠ 0) :
    similarity s1 s2 = (100 * ((L : ℚ) - (d : ℚ))) / (L : ℚ) / 100 := by
  simp only [similarity, token_sort_ratio]
  rw [hd, hl, if_neg hL]

lemma similarity_empty_one : similarity "" "" = 1 := by
  have h : tokenSortJoin "" = ([] : List Char) := rfl
  simp only [similarity, token_sort_ratio, h, List.length_nil]
  norm_num

lemma similarity_a17_a23 :
    similarity (normalize_title (get_title paperA17))
      (normalize_title (get_title paperA23)) = 85 / 100 := by
  rw [similarity_eval _ _ 40 6 (by decide) (by decide) (by decide)]
  norm_num

/-! ## Claim theorems: deduplication -/

/-- C3, counterexample: with threshold 0.85, two records whose titles are pure
punctuation both survive deduplicate_papers, yet they are identity-equivalent
in the spec's sense, because both normalized titles are empty and the
similarity of two empty strings is 1 ≥ threshold.  So the claim that no two
output elements are identity-equivalent is false as stated. -/
theorem C3_counterexample :
    deduplicate_papers [paperBang, paperQuest] (85 / 100) = [paperBang, paperQuest] ∧
    identityEquiv (85 / 100) paperBang paperQuest := by
  constructor
  · decide
  · right
    have h1 : normalize_title (get_title paperQuest) = "" := by decide
    have h2 : normalize_title (get_title paperBang) = "" := by decide
    rw [h1, h2, similarity_empty_one]
    norm_num

/-- C3 (amended): the output of deduplicate_papers is pairwise distinct in
identity in the sense the code enforces: no two output records have matching
(case-insensitively compared) DOIs, and any two output records that both have
a non-empty normalized title have similarity strictly below the threshold
(records whose normalized title is empty are exempt from title comparison). -/
theorem C3_dedup_pairwise_distinct (papers : List Paper) (threshold : ℚ) :
    (deduplicate_papers papers threshold).Pairwise (distinctIdentity threshold) :=
  deduplicate_papers_pairwise papers threshold

/-- C4: deduplicate_papers is idempotent: running it again on its own output,
with the same threshold, returns the output unchanged. -/
theorem C4_dedup_idempotent (papers : List Paper) (threshold : ℚ) :
    deduplicate_papers (deduplicate_papers papers threshold) threshold =
      deduplicate_papers papers threshold := by
  have hpair := deduplicate_papers_pairwise papers threshold
  have h := foldl_dedupStep_preserves threshold (deduplicate_papers papers threshold)
    ⟨[], [], []⟩ hpair
    (by intro p _ d _; exact List.not_mem_nil d)
    (by intro p _ _ s hs; exact absurd hs (List.not_mem_nil s))
  simpa [deduplicate_papers] using h

/-- C7: for two records without DOIs and with non-empty normalized titles,
a title similarity exactly equal to the threshold makes deduplicate_papers
drop the later record (the comparison is inclusive, ≥ threshold), while a
similarity strictly below the threshold keeps both. -/
theorem C7_threshold_boundary (p q : Paper) (threshold : ℚ)
    (hp : get_doi p = none) (hq : get_doi q = none)
    (hnp : normalize_title (get_title p) ≠ "")
    (hnq : normalize_title (get_title q) ≠ "") :
    (similarity (normalize_title (get_title q)) (normalize_title (get_title p)) = threshold →
      deduplicate_papers [p, q] threshold = [p]) ∧
    (similarity (normalize_title (get_title q)) (normalize_title (get_title p)) < threshold →
      deduplicate_papers [p, q] threshold = [p, q]) := by
  have htp : get_title p ≠ "" := fun h => hnp (by rw [normalize_title, h]; rfl)
  have htq : get_title q ≠ "" := fun h => hnq (by rw [normalize_title, h]; rfl)
  have hstep1 : dedupStep threshold ⟨[], [], []⟩ p =
      ⟨[], [normalize_title (get_title p)], [p]⟩ := by
    rw [dedupStep_none threshold _ p hp,
      dedupTitleStep_keep threshold ⟨[], [], []⟩ p htp hnp rfl]
    rfl
  constructor
  · intro heq
    have hany : List.any [normalize_title (get_title p)]
        (fun s => decide (threshold ≤
          similarity (normalize_title (get_title q)) s)) = true := by
      simp only [List.any_cons, List.any_nil, Bool.or_false]
      rw [heq]
      exact decide_eq_true (le_refl threshold)
    unfold deduplicate_papers
    rw [List.foldl_cons, hstep1, List.foldl_cons, List.foldl_nil,
      dedupStep_none threshold _ q hq,
      dedupTitleStep_drop threshold _ q htq hnq hany]
  · intro hlt
    have hany : List.any [normalize_title (get_title p)]
        (fun s => decide (threshold ≤
          similarity (normalize_title (get_title q)) s)) = false := by
      simp only [List.any_cons, List.any_nil, Bool.or_false]
      exact decide_eq_false (not_le.2 hlt)
    unfold deduplicate_papers
    rw [List.foldl_cons, hstep1, List.foldl_cons, List.foldl_nil,
      dedupStep_none threshold _ q hq,
      dedupTitleStep_keep threshold _ q htq hnq hany]
    rfl

/-- C7 witness: titles of twenty-three and seventeen letters a have similarity
exactly 85/100, and with threshold 85/100 the second record is dropped. -/
theorem C7_witness :
    deduplicate_papers [paperA23, paperA17] (85 / 100) = [paperA23] ∧
    similarity (normalize_title (get_title paperA17))
      (normalize_title (get_title paperA23)) = 85 / 100 :=
  ⟨(C7_threshold_boundary paperA23 paperA17 (85 / 100) (by decide) (by decide)
      (by decide) (by decide)).1 similarity_a17_a23, similarity_a17_a23⟩

/-! ## Lemmas about the download retry loop -/

lemma aux_httpError_perm (url : String) (trace : Nat → AttemptResult)
    (r attempt : Nat) (fs : FileState) (sleeps : List Nat) (s : Nat)
    (h : trace attempt = .httpError s) (hs : s ∈ permanentStatuses) :
    download_pdf_aux url trace (r + 1) attempt fs sleeps =
      ⟨false, attempt + 1, sleeps.reverse, fs⟩ := by
  unfold download_pdf_aux
  rw [h]
  exact if_pos hs

lemma aux_transient_step (url : String) (trace : Nat → AttemptResult)
    (r attempt : Nat) (fs : FileState) (sleeps : List Nat)
    (ht : transientResult (trace attempt)) (hlt : attempt < MAX_RETRIES - 1) :
    download_pdf_aux url trace (r + 1) attempt fs sleeps =
      download_pdf_aux url trace r (attempt + 1) fs (2 ^ attempt :: sleeps) := by
  rcases ht with h | ⟨s, h, hs5⟩
  · conv_lhs => unfold download_pdf_aux
    rw [h]
    exact if_pos hlt
  · have hsnp : s ∉ permanentStatuses := by
      simp only [permanentStatuses, List.mem_cons, List.not_mem_nil, or_false]
      push_neg
      refine ⟨by omega, by omega, by omega⟩
    conv_lhs => unfold download_pdf_aux
    rw [h]
    exact (if_neg hsnp).trans (if_pos hlt)

lemma aux_transient_last (url : String) (trace : Nat → AttemptResult)
    (r : Nat) (fs : FileState) (sleeps : List Nat)
    (ht : transientResult (trace 4)) :
    download_pdf_aux url trace (r + 1) 4 fs sleeps =
      ⟨false, 5, sleeps.reverse, fs⟩ := by
  rcases ht with h | ⟨s, h, hs5⟩
  · conv_lhs => unfold download_pdf_aux
    rw [h]
    exact if_neg (by decide)
  · have hsnp : s ∉ permanentStatuses := by
      simp only [permanentStatuses, List.mem_cons, List.not_mem_nil, or_false]
      push_neg
      refine ⟨by omega, by omega, by omega⟩
    conv_lhs => unfold download_pdf_aux
    rw [h]
    exact (if_neg hsnp).trans (if_neg (by decide))

lemma record_outcome_download (p : Paper) (env : RecordEnv) (url : String)
    (hu : get_pdf_url p = some url) (hne : url ≠ "")
    (hfe : env.fileExists = false) :
    record_outcome (p, env) =
      (if (download_pdf url env.trace).ok then .downloaded else .failed) := by
  simp only [record_outcome, hu, hfe, if_neg hne, Bool.false_eq_true, if_false]

/-! ## Claim theorems: download scheduler -/

/-- C1: the claim that a failed fetch leaves no partial file is false of the
code.  download_pdf opens the final output path directly in write mode (no
temp-then-rename), so when every attempt's body write raises mid-write, the
call returns failure with a partial file left at the target path, where a
later run will mistake it for a complete artifact. -/
theorem C1_partial_file_left :
    download_pdf "http://x/paper.pdf" (fun _ => .success "application/pdf" true) =
      ⟨false, 5, [1, 2, 4, 8], .partialFile⟩ := by
  decide

/-- C2, counterexample: two records that are distinct under the
priority-ordered identity rule (no DOI, arXiv ID, forum post ID or provider
paper ID on either, and different titles) receive the same paper ID, because
get_paper_id truncates the title to its first 50 characters. -/
theorem C2_counterexample :
    paperLongA.doi = none ∧ paperLongA.arxiv_id = none ∧
    paperLongA.post_id = none ∧ paperLongA.paperId = none ∧
    paperLongC.doi = none ∧ paperLongC.arxiv_id = none ∧
    paperLongC.post_id = none ∧ paperLongC.paperId = none ∧
    paperLongA.title ≠ paperLongC.title ∧
    get_paper_id paperLongA = get_paper_id paperLongC := by
  refine ⟨rfl, rfl, rfl, rfl, rfl, rfl, rfl, rfl, by decide, by decide⟩

/-- C2 (amended): get_paper_id is deterministic — it reads only the identity
fields doi, arxiv_id, post_id, paperId and title, so the same record always
maps to the same ID and the same target path across runs; but distinct
records are not guaranteed distinct IDs (see the title-truncation
counterexample). -/
theorem C2_id_deterministic (p q : Paper) (h1 : p.doi = q.doi)
    (h2 : p.arxiv_id = q.arxiv_id) (h3 : p.post_id = q.post_id)
    (h4 : p.paperId = q.paperId) (h5 : p.title = q.title) :
    get_paper_id p = get_paper_id q ∧
    ∀ dir : String, output_path dir p = output_path dir q := by
  have hid : get_paper_id p = get_paper_id q := by
    unfold get_paper_id
    rw [h1, h2, h3, h4, h5]
  exact ⟨hid, fun dir => by unfold output_path; rw [hid]⟩

/-- C2 witness: two records with the same identity fields but different
pdf_url and source fields get one ID and one path. -/
theorem C2_witness :
    get_paper_id paperPdf = get_paper_id paperPdfB ∧
    output_path "papers" paperPdf = output_path "papers" paperPdfB :=
  ⟨(C2_id_deterministic paperPdf paperPdfB rfl rfl rfl rfl rfl).1,
   (C2_id_deterministic paperPdf paperPdfB rfl rfl rfl rfl rfl).2 "papers"⟩

/-- C5: a permanent-failure HTTP status (403, 404 or 451) on the first
attempt ends download_pdf after exactly one attempt, with no backoff sleep
and no retry, and the record's outcome is failed. -/
theorem C5_permanent_failure (p : Paper) (url : String)
    (trace : Nat → AttemptResult) (s : Nat)
    (h0 : trace 0 = .httpError s) (hs : s ∈ permanentStatuses)
    (hu : get_pdf_url p = some url) (hne : url ≠ "") :
    download_pdf url trace = ⟨false, 1, [], .absent⟩ ∧
    record_outcome (p, ⟨false, trace⟩) = .failed := by
  have hd : download_pdf url trace = ⟨false, 1, [], .absent⟩ := by
    unfold download_pdf
    show download_pdf_aux url trace (4 + 1) 0 FileState.absent [] = _
    rw [aux_httpError_perm url trace 4 0 FileState.absent [] s h0 hs]
    rfl
  refine ⟨hd, ?_⟩
  rw [record_outcome_download p ⟨false, trace⟩ url hu hne rfl]
  show (if (download_pdf url trace).ok then Outcome.downloaded else Outcome.failed) = _
  rw [hd]
  rfl

/-- C5 witness: a 404 on the first attempt of a record with a pdf url. -/
theorem C5_witness :
    download_pdf "http://x/paper.pdf" (fun _ => .httpError 404) =
      ⟨false, 1, [], .absent⟩ ∧
    record_outcome (paperPdf, ⟨false, fun _ => .httpError 404⟩) = .failed :=
  C5_permanent_failure paperPdf "http://x/paper.pdf" (fun _ => .httpError 404) 404
    rfl (by decide) rfl (by decide)

/-- C6: when all five attempts fail transiently (timeout, connection failure
or a 5xx status), download_pdf makes exactly MAX_RETRIES = 5 strictly
sequential attempts with sleeps of 2^attempt seconds between consecutive
attempts — the strictly increasing delays 1, 2, 4, 8 — and returns failure,
so the record's outcome is failed. -/
theorem C6_transient_budget (p : Paper) (url : String)
    (trace : Nat → AttemptResult)
    (h : ∀ i, i < MAX_RETRIES → transientResult (trace i))
    (hu : get_pdf_url p = some url) (hne : url ≠ "") :
    download_pdf url trace = ⟨false, 5, [1, 2, 4, 8], .absent⟩ ∧
    record_outcome (p, ⟨false, trace⟩) = .failed := by
  have hd : download_pdf url trace = ⟨false, 5, [1, 2, 4, 8], .absent⟩ := by
    unfold download_pdf
    show download_pdf_aux url trace (4 + 1) 0 FileState.absent [] = _
    rw [aux_transient_step url trace 4 0 FileState.absent [] (h 0 (by decide)) (by decide)]
    show download_pdf_aux url trace (3 + 1) 1 FileState.absent [1] = _
    rw [aux_transient_step url trace 3 1 FileState.absent [1] (h 1 (by decide)) (by decide)]
    show download_pdf_aux url trace (2 + 1) 2 FileState.absent [2, 1] = _
    rw [aux_transient_step url trace 2 2 FileState.absent [2, 1] (h 2 (by decide)) (by decide)]
    show download_pdf_aux url trace (1 + 1) 3 FileState.absent [4, 2, 1] = _
    rw [aux_transient_step url trace 1 3 FileState.absent [4, 2, 1] (h 3 (by decide)) (by decide)]
    show download_pdf_aux url trace (0 + 1) 4 FileState.absent [8, 4, 2, 1] = _
    rw [aux_transient_last url trace 0 FileState.absent [8, 4, 2, 1] (h 4 (by decide))]
    rfl
  refine ⟨hd, ?_⟩
  rw [record_outcome_download p ⟨false, trace⟩ url hu hne rfl]
  show (if (download_pdf url trace).ok then Outcome.downloaded else Outcome.failed) = _
  rw [hd]
  rfl

/-- C6 witness: every attempt times out. -/
theorem C6_witness :
    download_pdf "http://x/paper.pdf" (fun _ => .otherError) =
      ⟨false, 5, [1, 2, 4, 8], .absent⟩ ∧
    record_outcome (paperPdf, ⟨false, fun _ => .otherError⟩) = .failed :=
  C6_transient_budget paperPdf "http://x/paper.pdf" (fun _ => .otherError)
    (fun _ _ => Or.inl rfl) rfl (by decide)

/-! ## Lemmas about download_all stats accumulation -/

lemma foldl_download_counts (dir : String) (l : List (Paper × RecordEnv)) :
    ∀ st : Stats,
      ((l.foldl (download_step dir) st).downloaded +
        (l.foldl (download_step dir) st).skipped_no_url +
        (l.foldl (download_step dir) st).skipped_exists +
        (l.foldl (download_step dir) st).failed
        = st.downloaded + st.skipped_no_url + st.skipped_exists + st.failed + l.length) ∧
      (l.foldl (download_step dir) st).total = st.total := by
  induction l with
  | nil => intro st; simp
  | cons pe rest ih =>
    intro st
    rw [List.foldl_cons]
    obtain ⟨ha, hb⟩ := ih (download_step dir st pe)
    refine ⟨?_, ?_⟩
    · rw [ha]
      cases h : record_outcome pe <;> simp [download_step, h] <;> omega
    · rw [hb]
      cases h : record_outcome pe <;> simp [download_step, h]

lemma foldl_download_files (dir : String) (l : List (Paper × RecordEnv)) :
    ∀ st : Stats,
      ((l.foldl (download_step dir) st).downloaded_files =
        st.downloaded_files ++
          (l.filter (fun pe => keptOutcome (record_outcome pe))).map
            (fun pe => output_path dir pe.1)) ∧
      (l.foldl (download_step dir) st).failed_papers =
        st.failed_papers ++
          (l.filter (fun pe => failedOutcome (record_outcome pe))).map
            (fun pe => (get_paper_id pe.1, pe.1.title, (get_pdf_url pe.1).getD "")) := by
  induction l with
  | nil => intro st; simp
  | cons pe rest ih =>
    intro st
    rw [List.foldl_cons]
    obtain ⟨ha, hb⟩ := ih (download_step dir st pe)
    refine ⟨?_, ?_⟩
    · rw [ha]
      cases h : record_outcome pe <;>
        simp [download_step, h, keptOutcome, List.filter_cons]
    · rw [hb]
      cases h : record_outcome pe <;>
        simp [download_step, h, failedOutcome, List.filter_cons]

/-- C9: the four outcome counters of download_all partition the input: each
record receives exactly one terminal outcome, so downloaded + skipped_no_url
+ skipped_exists + failed equals the input length, which is also the stats
total. -/
theorem C9_stats_partition (papers : List (Paper × RecordEnv)) (output_dir : String) :
    (download_all papers output_dir).downloaded +
    (download_all papers output_dir).skipped_no_url +
    (download_all papers output_dir).skipped_exists +
    (download_all papers output_dir).failed = papers.length ∧
    (download_all papers output_dir).total = papers.length := by
  unfold download_all
  refine ⟨?_, ?_⟩
  · rw [(foldl_download_counts output_dir papers _).1]
    simp
  · rw [(foldl_download_counts output_dir papers _).2]

/-- C10: downloaded_files holds the target path of every record whose outcome
was downloaded or skipped-existing (in input order), and failed_papers holds
exactly one (id, title, url) entry per record whose outcome was failed. -/
theorem C10_stats_lists (papers : List (Paper × RecordEnv)) (output_dir : String) :
    (download_all papers output_dir).downloaded_files =
      (papers.filter (fun pe => keptOutcome (record_outcome pe))).map
        (fun pe => output_path output_dir pe.1) ∧
    (download_all papers output_dir).failed_papers =
      (papers.filter (fun pe => failedOutcome (record_outcome pe))).map
        (fun pe => (get_paper_id pe.1, pe.1.title, (get_pdf_url pe.1).getD "")) := by
  unfold download_all
  refine ⟨?_, ?_⟩
  · rw [(foldl_download_files output_dir papers _).1]
    simp
  · rw [(foldl_download_files output_dir papers _).2]
    simp

/-! ## Claim theorems: run orchestrator -/

/-- C8: the orchestrator exits nonzero precisely when every provider search
task failed (exit code of the task nonzero); a task that hits its 300-second
timeout is recorded as a failed task with the synthetic diagnostic string,
not a crash. -/
theorem C8_orchestrator_exit (tasks : List (String × TaskResult)) :
    (main_exit_code (tasks.map (fun t => run_search t.1 t.2)) ≠ 0 ↔
      ∀ r ∈ tasks.map (fun t => run_search t.1 t.2), r.2.1 ≠ 0) ∧
    ∀ name : String, run_search name .timedOut =
      (name, -1, "Timeout after 300 seconds") := by
  refine ⟨?_, fun name => rfl⟩
  unfold main_exit_code
  by_cases hc : success_count (tasks.map (fun t => run_search t.1 t.2)) = 0
  · rw [if_pos hc]
    unfold success_count at hc
    rw [List.length_eq_zero, List.filter_eq_nil_iff] at hc
    constructor
    · intro _ r hr
      have hr2 := hc r hr
      simpa using hr2
    · intro _
      exact one_ne_zero
  · rw [if_neg hc]
    constructor
    · intro h0
      exact absurd rfl h0
    · intro hall
      exfalso
      apply hc
      unfold success_count
      rw [List.length_eq_zero, List.filter_eq_nil_iff]
      intro r hr
      simpa using hall r hr

end LitReview
